import Mathlib

/-!
Verification of the conditional-date expando node (`expando/node_conddate.c`)
and the expando format-string grammar of the surrounding engine.

The C code is embedded shallowly:

* `time_t` values and `struct tm` fields become `Int`.
* The C library's civil-time conversions (`localtime_r`, `mktime`) are
  modelled for a fixed UTC offset (no DST): `localtime_r` decomposes a
  timestamp into Gregorian calendar fields, `mktime` recomposes possibly
  out-of-range fields, renormalizing them exactly the way the C library
  does (field overflow/underflow carries into coarser fields).
* Strings become `List Char`; reading one byte past the end of the
  remainder yields the NUL terminator, as in C.

All functions are computable so concrete counterexamples evaluate by
`decide`/`rfl`.
-/

/-- Days from civil date to days since the Unix epoch (1970-01-01), for
`m ∈ [1,12]`; the day-of-month `d` enters linearly, so out-of-range values
of `d` renormalize exactly like the C library's `mktime`. -/
def days_from_civil (y m d : Int) : Int :=
  let y2 := if m ≤ 2 then y - 1 else y
  let era := y2 / 400
  let yoe := y2 - era * 400
  let mp := (m + 9) % 12
  let doy := (153 * mp + 2) / 5 + d - 1
  let doe := yoe * 365 + yoe / 4 - yoe / 100 + doy
  era * 146097 + doe - 719468

/-- Days before year-of-era `y` within a 400-year Gregorian era
(cumulative length of the shifted years `0 .. y-1`). -/
def days_before_yoe (y : Int) : Int :=
  365 * y + y / 4 - y / 100 + y / 400

/-- Civil date `(year, month, day)` of a day count since the Unix epoch.
The year-of-era is obtained from a linear estimate corrected by at most
one, the style used by C library `localtime` implementations. -/
def civil_from_days (z : Int) : Int × Int × Int :=
  let z2 := z + 719468
  let era := z2 / 146097
  let doe := z2 - era * 146097
  let y0 := 400 * doe / 146097
  let yoe := if days_before_yoe (y0 + 1) ≤ doe then y0 + 1 else y0
  let doy := doe - days_before_yoe yoe
  let mp := (5 * doy + 2) / 153
  let d := doy - (153 * mp + 2) / 5 + 1
  let m := if mp < 10 then mp + 3 else mp - 9
  let y := yoe + era * 400
  (if m ≤ 2 then y + 1 else y, m, d)

theorem dbc_step_le (y : Int) : days_before_yoe (y + 1) ≤ days_before_yoe y + 366 := by
  unfold days_before_yoe
  by_cases h4 : (y + 1) % 400 = 0 <;> omega

theorem round_core (doe y0 : Int) (h0 : 0 ≤ doe) (h1 : doe ≤ 146096)
    (hy0 : 146097 * y0 ≤ 400 * doe ∧ 400 * doe < 146097 * (y0 + 1)) :
    (days_before_yoe (y0 + 1) ≤ doe →
       doe < days_before_yoe (y0 + 2) ∧ 0 ≤ y0 + 1 ∧ y0 + 1 ≤ 399) ∧
    (¬ days_before_yoe (y0 + 1) ≤ doe →
       days_before_yoe y0 ≤ doe ∧ 0 ≤ y0 ∧ y0 ≤ 399) := by
  unfold days_before_yoe
  rcases Int.lt_or_le y0 399 with h9 | h9
  · constructor <;> intro hc <;> omega
  · have h400 : y0 = 399 := by omega
    subst h400
    constructor <;> intro hc <;> omega

theorem civil_from_days_bounds (z : Int) :
    1 ≤ (civil_from_days z).2.1 ∧ (civil_from_days z).2.1 ≤ 12 ∧
    1 ≤ (civil_from_days z).2.2 ∧ (civil_from_days z).2.2 ≤ 31 := by
  unfold civil_from_days days_before_yoe
  have h : 0 ≤ z + 719468 - (z + 719468) / 146097 * 146097 ∧
      z + 719468 - (z + 719468) / 146097 * 146097 ≤ 146096 := by omega
  simp only []
  split <;> split <;> omega

theorem days_from_civil_recon (era yoe doy : Int)
    (hyoe : 0 ≤ yoe ∧ yoe ≤ 399) (hdoy : 0 ≤ doy ∧ doy ≤ 365) :
    days_from_civil
      (if (if (5 * doy + 2) / 153 < 10 then (5 * doy + 2) / 153 + 3
            else (5 * doy + 2) / 153 - 9) ≤ 2
        then yoe + era * 400 + 1 else yoe + era * 400)
      (if (5 * doy + 2) / 153 < 10 then (5 * doy + 2) / 153 + 3
        else (5 * doy + 2) / 153 - 9)
      (doy - (153 * ((5 * doy + 2) / 153) + 2) / 5 + 1)
    = era * 146097 + (365 * yoe + yoe / 4 - yoe / 100 + doy) - 719468 := by
  unfold days_from_civil
  simp only []
  split <;> split <;> omega

theorem days_from_civil_civil_from_days (z : Int) :
    days_from_civil (civil_from_days z).1 (civil_from_days z).2.1
      (civil_from_days z).2.2 = z := by
  unfold civil_from_days
  simp only []
  have h0 : 0 ≤ z + 719468 - (z + 719468) / 146097 * 146097 := by omega
  have h1 : z + 719468 - (z + 719468) / 146097 * 146097 ≤ 146096 := by omega
  have hy0 : 146097 * (400 * (z + 719468 - (z + 719468) / 146097 * 146097) / 146097)
        ≤ 400 * (z + 719468 - (z + 719468) / 146097 * 146097)
      ∧ 400 * (z + 719468 - (z + 719468) / 146097 * 146097)
        < 146097 * (400 * (z + 719468 - (z + 719468) / 146097 * 146097) / 146097 + 1) := by
    omega
  have hrc := round_core _ _ h0 h1 hy0
  by_cases hc : days_before_yoe
        (400 * (z + 719468 - (z + 719468) / 146097 * 146097) / 146097 + 1)
      ≤ z + 719468 - (z + 719468) / 146097 * 146097
  · have hs := hrc.1 hc
    clear hrc
    have hstep := dbc_step_le
      (400 * (z + 719468 - (z + 719468) / 146097 * 146097) / 146097 + 1)
    simp only [if_pos hc]
    rw [days_from_civil_recon ((z + 719468) / 146097) _ _ ⟨by omega, hs.2.2⟩
        ⟨by unfold days_before_yoe at hc ⊢; omega,
         by unfold days_before_yoe at hs hstep ⊢; omega⟩]
    unfold days_before_yoe
    omega
  · have hs := hrc.2 hc
    clear hrc
    have hstep := dbc_step_le
      (400 * (z + 719468 - (z + 719468) / 146097 * 146097) / 146097)
    simp only [if_neg hc]
    rw [days_from_civil_recon ((z + 719468) / 146097) _ _ ⟨hs.2.1, hs.2.2⟩
        ⟨by unfold days_before_yoe at hs ⊢; omega,
         by unfold days_before_yoe at hc hs hstep ⊢; omega⟩]
    unfold days_before_yoe
    omega

/-- The fields of the C library's `struct tm` used by `node_conddate.c`
(`tm_wday`, `tm_yday` and `tm_isdst` are never read by the embedded code). -/
structure Tm where
  tm_sec : Int
  tm_min : Int
  tm_hour : Int
  tm_mday : Int
  tm_mon : Int
  tm_year : Int
deriving DecidableEq, Repr

/-- The C library's `localtime_r` for a fixed UTC offset `off` (seconds east
of UTC, no DST): decompose timestamp `t` into civil fields, with the C
conventions `tm_mon ∈ [0,11]` and `tm_year` counted from 1900. -/
def localtime_r (t off : Int) : Tm :=
  let lt := t + off
  let days := lt / 86400
  let secs := lt - days * 86400
  let c := civil_from_days days
  { tm_sec := secs % 60, tm_min := secs / 60 % 60, tm_hour := secs / 3600,
    tm_mday := c.2.2, tm_mon := c.2.1 - 1, tm_year := c.1 - 1900 }

/-- The C library's `mktime` for a fixed UTC offset `off`: recompose civil
fields into a timestamp.  Out-of-range fields (negative or too large
`tm_mon`, `tm_mday`, `tm_hour`, `tm_min`, `tm_sec`) are renormalized by
carrying into the coarser fields, exactly as `mktime` does. -/
def mktime (tm : Tm) (off : Int) : Int :=
  let y := tm.tm_year + 1900 + tm.tm_mon / 12
  let m := tm.tm_mon % 12 + 1
  days_from_civil y m tm.tm_mday * 86400
    + tm.tm_hour * 3600 + tm.tm_min * 60 + tm.tm_sec - off

theorem mktime_localtime (t off : Int) : mktime (localtime_r t off) off = t := by
  unfold mktime localtime_r
  simp only []
  have hb := civil_from_days_bounds ((t + off) / 86400)
  have hrt := days_from_civil_civil_from_days ((t + off) / 86400)
  have h1 : (civil_from_days ((t + off) / 86400)).1 - 1900 + 1900 +
      ((civil_from_days ((t + off) / 86400)).2.1 - 1) / 12 =
      (civil_from_days ((t + off) / 86400)).1 := by omega
  have h2 : ((civil_from_days ((t + off) / 86400)).2.1 - 1) % 12 + 1 =
      (civil_from_days ((t + off) / 86400)).2.1 := by omega
  rw [h1, h2, hrt]
  omega

/-- Private data of a Conditional-Date node (`struct NodeCondDatePrivate`):
a number of units and a period character from `ymwdHM`. -/
structure NodeCondDatePrivate where
  count : Int
  period : Char
deriving DecidableEq, Repr

/-- Mirrors `node_conddate_private_new`. -/
def node_conddate_private_new (count : Int) (period : Char) : NodeCondDatePrivate :=
  { count := count, period := period }

/-- The fields of `struct ExpandoNode` relevant to a Conditional-Date node:
domain id, unique id, and the private data. -/
structure ExpandoNode where
  did : Int
  uid : Int
  ndata : NodeCondDatePrivate
deriving DecidableEq, Repr

/-- Mirrors `node_conddate_new`: build a Conditional-Date node. -/
def node_conddate_new (count : Int) (period : Char) (did uid : Int) : ExpandoNode :=
  { did := did, uid := uid, ndata := node_conddate_private_new count period }

/-- Mirrors `cutoff_number` of `node_conddate.c`: read the current local
time (`mutt_date_now()` is the explicit parameter `now`, the timezone is
the fixed offset `off`), subtract `count` from the field selected by
`period`, and renormalize with `mktime`. -/
def cutoff_number (now off : Int) (period : Char) (count : Int) : Int :=
  let tm := localtime_r now off
  let tm :=
    if period = 'y' then { tm with tm_year := tm.tm_year - count }
    else if period = 'm' then { tm with tm_mon := tm.tm_mon - count }
    else if period = 'w' then { tm with tm_mday := tm.tm_mday - 7 * count }
    else if period = 'd' then { tm with tm_mday := tm.tm_mday - count }
    else if period = 'H' then { tm with tm_hour := tm.tm_hour - count }
    else if period = 'M' then { tm with tm_min := tm.tm_min - count }
    else tm
  mktime tm off

/-- Mirrors `cutoff_this` of `node_conddate.c`, including the `switch`
fall-through: `'y'` falls through `'m'`, `'d'`, `'H'`, `'M'`; the `'w'`
case only sets the day of month and does not fall through. -/
def cutoff_this (now off : Int) (period : Char) : Int :=
  let tm0 := localtime_r now off
  let tm1 := if period = 'y' then { tm0 with tm_mon := 0 } else tm0
  let tm2 := if period = 'y' ∨ period = 'm' then { tm1 with tm_mday := 1 } else tm1
  let tm3 := if period = 'y' ∨ period = 'm' ∨ period = 'd'
    then { tm2 with tm_hour := 0 } else tm2
  let tm4 := if period = 'y' ∨ period = 'm' ∨ period = 'd' ∨ period = 'H'
    then { tm3 with tm_min := 0 } else tm3
  let tm5 := if period = 'y' ∨ period = 'm' ∨ period = 'd' ∨ period = 'H' ∨ period = 'M'
    then { tm4 with tm_sec := 0 } else tm4
  let tm6 := if period = 'w' then { tm5 with tm_mday := 1 } else tm5
  mktime tm6 off

/-- Mirrors `node_conddate_render`: `t_test` is the number returned by the
matching dispatch entry's `get_number` callback for this node's
`(did, uid)`; `now` and `off` are the ambient clock and timezone read via
`mutt_date_now`/`localtime_r`.  Returns the boolean `t_test > t_cutoff`. -/
def node_conddate_render (node : ExpandoNode) (t_test : Int) (now off : Int) : Bool :=
  let priv := node.ndata
  let t_cutoff := if priv.count = 0 then cutoff_this now off priv.period
    else cutoff_number now off priv.period priv.count
  decide (t_test > t_cutoff)

theorem days_from_civil_mday_shift (y m d k : Int) :
    days_from_civil y m (d - k) = days_from_civil y m d - k := by
  unfold days_from_civil
  simp only []
  split <;> omega

theorem cutoff_this_day_eq (now off : Int) :
    cutoff_this now off 'd' = 86400 * ((now + off) / 86400) - off := by
  have hrt := days_from_civil_civil_from_days ((now + off) / 86400)
  have hb := civil_from_days_bounds ((now + off) / 86400)
  show mktime { localtime_r now off with tm_hour := 0, tm_min := 0, tm_sec := 0 } off = _
  unfold mktime localtime_r
  simp only []
  have h1 : (civil_from_days ((now + off) / 86400)).1 - 1900 + 1900 +
      ((civil_from_days ((now + off) / 86400)).2.1 - 1) / 12 =
      (civil_from_days ((now + off) / 86400)).1 := by omega
  have h2 : ((civil_from_days ((now + off) / 86400)).2.1 - 1) % 12 + 1 =
      (civil_from_days ((now + off) / 86400)).2.1 := by omega
  rw [h1, h2, hrt]
  omega

theorem cutoff_this_hour_eq (now off : Int) :
    cutoff_this now off 'H' = 3600 * ((now + off) / 3600) - off := by
  have hrt := days_from_civil_civil_from_days ((now + off) / 86400)
  have hb := civil_from_days_bounds ((now + off) / 86400)
  show mktime { localtime_r now off with tm_min := 0, tm_sec := 0 } off = _
  unfold mktime localtime_r
  simp only []
  have h1 : (civil_from_days ((now + off) / 86400)).1 - 1900 + 1900 +
      ((civil_from_days ((now + off) / 86400)).2.1 - 1) / 12 =
      (civil_from_days ((now + off) / 86400)).1 := by omega
  have h2 : ((civil_from_days ((now + off) / 86400)).2.1 - 1) % 12 + 1 =
      (civil_from_days ((now + off) / 86400)).2.1 := by omega
  rw [h1, h2, hrt]
  omega

theorem cutoff_this_minute_eq (now off : Int) :
    cutoff_this now off 'M' = 60 * ((now + off) / 60) - off := by
  have hrt := days_from_civil_civil_from_days ((now + off) / 86400)
  have hb := civil_from_days_bounds ((now + off) / 86400)
  show mktime { localtime_r now off with tm_sec := 0 } off = _
  unfold mktime localtime_r
  simp only []
  have h1 : (civil_from_days ((now + off) / 86400)).1 - 1900 + 1900 +
      ((civil_from_days ((now + off) / 86400)).2.1 - 1) / 12 =
      (civil_from_days ((now + off) / 86400)).1 := by omega
  have h2 : ((civil_from_days ((now + off) / 86400)).2.1 - 1) % 12 + 1 =
      (civil_from_days ((now + off) / 86400)).2.1 := by omega
  rw [h1, h2, hrt]
  omega

theorem cutoff_this_week_time_of_day (now off : Int) :
    (cutoff_this now off 'w' + off) % 86400 = (now + off) % 86400 := by
  show (mktime { localtime_r now off with tm_mday := 1 } off + off) % 86400 = _
  unfold mktime localtime_r
  simp only []
  omega

theorem cutoff_this_midnight (now off : Int) (p : Char)
    (h : p = 'y' ∨ p = 'm' ∨ p = 'd') :
    (cutoff_this now off p + off) % 86400 = 0 := by
  rcases h with h | h | h <;> subst h
  · show (mktime { localtime_r now off with tm_mon := 0, tm_mday := 1, tm_hour := 0, tm_min := 0, tm_sec := 0 } off + off) % 86400 = 0
    unfold mktime localtime_r
    simp only []
    omega
  · show (mktime { localtime_r now off with tm_mday := 1, tm_hour := 0, tm_min := 0, tm_sec := 0 } off + off) % 86400 = 0
    unfold mktime localtime_r
    simp only []
    omega
  · show (mktime { localtime_r now off with tm_hour := 0, tm_min := 0, tm_sec := 0 } off + off) % 86400 = 0
    unfold mktime localtime_r
    simp only []
    omega

theorem cutoff_this_hour_aligned (now off : Int) :
    (cutoff_this now off 'H' + off) % 3600 = 0 := by
  rw [cutoff_this_hour_eq]
  omega

theorem cutoff_this_minute_aligned (now off : Int) :
    (cutoff_this now off 'M' + off) % 60 = 0 := by
  rw [cutoff_this_minute_eq]
  omega

theorem cutoff_number_day_eq (now off n : Int) :
    cutoff_number now off 'd' n = now - 86400 * n := by
  have hmk := mktime_localtime now off
  show mktime { localtime_r now off with
      tm_mday := (localtime_r now off).tm_mday - n } off = _
  unfold mktime at *
  simp only [] at *
  rw [days_from_civil_mday_shift]
  omega

theorem cutoff_number_week_eq (now off n : Int) :
    cutoff_number now off 'w' n = now - 604800 * n := by
  have hmk := mktime_localtime now off
  show mktime { localtime_r now off with
      tm_mday := (localtime_r now off).tm_mday - 7 * n } off = _
  unfold mktime at *
  simp only [] at *
  rw [days_from_civil_mday_shift]
  omega

theorem cutoff_number_hour_eq (now off n : Int) :
    cutoff_number now off 'H' n = now - 3600 * n := by
  have hmk := mktime_localtime now off
  show mktime { localtime_r now off with
      tm_hour := (localtime_r now off).tm_hour - n } off = _
  unfold mktime at *
  simp only [] at *
  omega

theorem cutoff_number_minute_eq (now off n : Int) :
    cutoff_number now off 'M' n = now - 60 * n := by
  have hmk := mktime_localtime now off
  show mktime { localtime_r now off with
      tm_min := (localtime_r now off).tm_min - n } off = _
  unfold mktime at *
  simp only [] at *
  omega

theorem node_conddate_render_iff (node : ExpandoNode) (t_test now off : Int) :
    node_conddate_render node t_test now off = true ↔
      t_test > (if node.ndata.count = 0 then cutoff_this now off node.ndata.period
        else cutoff_number now off node.ndata.period node.ndata.count) := by
  unfold node_conddate_render
  simp only [decide_eq_true_eq]

/-- Mirrors `struct ExpandoParseError`: a position (byte offset into the
text handed to the parse callback) and a message. -/
structure ExpandoParseError where
  position : Nat
  message : String
deriving DecidableEq, Repr

/-- Reading one byte of a C string remainder: past the end of the list the
NUL terminator is read, as in C. -/
def peekChar (s : List Char) : Char := s.headD (Char.ofNat 0)

/-- Numeric value of a run of decimal digits. -/
def decimal_value (ds : List Char) : Nat :=
  ds.foldl (fun a c => a * 10 + (c.toNat - 48)) 0

/-- Modelled from the spec: the numeric-literal helper `mutt_str_atous`
(library code not under `src/`): parse a leading run of decimal digits into
an unsigned short, returning the value and the number of characters
consumed, or failure when the value is out of range (greater than
`USHRT_MAX = 65535`, the overflow sentinel).  `node_conddate_parse` only
calls it when the first character is a digit. -/
def mutt_str_atous (s : List Char) : Option (Nat × Nat) :=
  let ds := s.takeWhile Char.isDigit
  if 65535 < decimal_value ds then none else some (decimal_value ds, ds.length)

/-- The `strchr ("ymwdHM", c)` test of `node_conddate_parse`: true when `c`
is one of the six period letters, or when `c` is the NUL terminator (C's
`strchr` also matches the terminating NUL of the pattern string). -/
def strchr_ymwdHM (c : Char) : Bool :=
  c = 'y' ∨ c = 'm' ∨ c = 'w' ∨ c = 'd' ∨ c = 'H' ∨ c = 'M' ∨ c = Char.ofNat 0

/-- Tail of `node_conddate_parse` after the optional count has been read:
`s` is the remainder, `idx` the number of characters already consumed,
`count` the parsed count.  On success the node and the final value of
`*parsed_until` (as an offset) are returned and the caller's error struct
is passed through untouched; on failure the error struct is overwritten. -/
def conddate_parse_tail (s : List Char) (idx : Nat) (count : Int) (did uid : Int)
    (err : ExpandoParseError) :
    Option (ExpandoNode × Nat) × ExpandoParseError :=
  let c := peekChar s
  if strchr_ymwdHM c then
    (some (node_conddate_new count c did uid, idx + 1), err)
  else
    (none, { position := idx, message := "Invalid time period" })

/-- Mirrors `node_conddate_parse`: parse `[count]<period>`.  The input is
the remainder of the format string (NUL-terminated in C, a `List Char`
here); `err` is the caller's `struct ExpandoParseError`, modelled as an
explicit in/out value because C writes it through a pointer only on
failure. -/
def node_conddate_parse (s : List Char) (did uid : Int) (err : ExpandoParseError) :
    Option (ExpandoNode × Nat) × ExpandoParseError :=
  if (peekChar s).isDigit then
    match mutt_str_atous s with
    | none => (none, { position := 0, message := "Invalid number" })
    | some (number, len) =>
      if number = 65535 then
        (none, { position := 0, message := "Invalid number" })
      else
        conddate_parse_tail (s.drop len) len (Int.ofNat number) did uid err
  else
    conddate_parse_tail s 0 0 did uid err

/-- Justification of a rendered field. -/
inductive Justify where
  | left
  | right
  | center
deriving DecidableEq, Repr

/-- Modelled from the spec: the Format-Spec attached to a Field node
(`struct ExpandoFormat`): minimum width, maximum width (`none` is the
unbounded sentinel, `INT_MAX` in the C tests), justification, and the
leader (fill) character. -/
structure ExpandoFormat where
  min_cols : Nat
  max_cols : Option Nat
  justification : Justify
  leader : Char
deriving DecidableEq, Repr

/-- The default Format-Spec: no minimum, unbounded maximum, right
justification, space leader. -/
def format_default : ExpandoFormat :=
  { min_cols := 0, max_cols := none, justification := Justify.right, leader := ' ' }

/-- Modelled from the spec (grammar of section 4.1): parse the optional
`[-|=][0][min_cols][.max_cols]` prefix of a `%` token.  A leading `-`
selects left justification, `=` center (default right); a following `0`
selects the `'0'` leader; digits before an optional `.` set `min_cols`,
digits after it set `max_cols`. -/
def parse_format_spec (s : List Char) : ExpandoFormat × List Char :=
  let (just, s1) :=
    match s with
    | '-' :: r => (Justify.left, r)
    | '=' :: r => (Justify.center, r)
    | _ => (Justify.right, s)
  let (lead, s2) :=
    match s1 with
    | '0' :: r => ('0', r)
    | _ => (' ', s1)
  let minds := s2.takeWhile Char.isDigit
  let s3 := s2.dropWhile Char.isDigit
  let (maxc, s4) :=
    match s3 with
    | '.' :: r => (some (decimal_value (r.takeWhile Char.isDigit)), r.dropWhile Char.isDigit)
    | _ => (none, s3)
  ({ min_cols := decimal_value minds, max_cols := maxc, justification := just,
     leader := lead }, s4)

/-- Modelled from the spec: AST nodes of the expando language needed by the
testable properties — literal text, a field reference with its Format-Spec,
a boolean condition on a token, and a conditional whose branches may each
be absent (`none`), which is distinct from present-but-empty. -/
inductive ENode where
  | text : List Char → ENode
  | field : Char → ExpandoFormat → ENode
  | condBool : Char → ENode
  | cond : ENode → Option (List ENode) → Option (List ENode) → ENode

/-- Modelled from the spec: recursive-descent parse of a node sequence.
`defs` is the Definition Table (single-letter tokens, as in the spec's
testable properties), `stops` the delimiters that end the current branch
(`&` or `>` inside a conditional).  `fuel` bounds recursion depth; any
fuel larger than the input length suffices.  A branch whose node list is
empty yields an absent (`none`) sub-tree. -/
def parse_seq (defs : List Char) : Nat → List Char → List Char →
    Option (List ENode × List Char)
  | 0, _, _ => none
  | _ + 1, [], _ => some ([], [])
  | fuel + 1, c :: rest, stops =>
    if c ∈ stops then some ([], c :: rest)
    else if c = '%' then
      match rest with
      | '<' :: tk :: '?' :: r3 =>
        if tk ∈ defs then
          match parse_seq defs fuel r3 ['&', '>'] with
          | some (tseq, r4) =>
            match r4 with
            | '&' :: r5 =>
              match parse_seq defs fuel r5 ['>'] with
              | some (fseq, r6) =>
                match r6 with
                | '>' :: r7 =>
                  match parse_seq defs fuel r7 stops with
                  | some (ns, rr) =>
                    some (ENode.cond (ENode.condBool tk)
                      (if tseq.isEmpty then none else some tseq)
                      (if fseq.isEmpty then none else some fseq) :: ns, rr)
                  | none => none
                | _ => none
              | none => none
            | '>' :: r5 =>
              match parse_seq defs fuel r5 stops with
              | some (ns, rr) =>
                some (ENode.cond (ENode.condBool tk)
                  (if tseq.isEmpty then none else some tseq) none :: ns, rr)
              | none => none
            | _ => none
          | none => none
        else none
      | _ =>
        match parse_format_spec rest with
        | (fmt, r2) =>
          match r2 with
          | tk :: r3 =>
            if tk ∈ defs then
              match parse_seq defs fuel r3 stops with
              | some (ns, rr) => some (ENode.field tk fmt :: ns, rr)
              | none => none
            else none
          | [] => none
    else
      match parse_seq defs fuel
          ((c :: rest).dropWhile (fun x => ¬ (x = '%' ∨ x ∈ stops))) stops with
      | some (ns, rr) =>
        some (ENode.text ((c :: rest).takeWhile (fun x => ¬ (x = '%' ∨ x ∈ stops))) :: ns, rr)
      | none => none

/-- Modelled from the spec: `expando_parse` — parse a whole format string
against a Definition Table of single-letter tokens, producing the root
node sequence. -/
def expando_parse (s : String) (defs : List Char) : Option (List ENode) :=
  match parse_seq defs (s.length + 1) s.toList [] with
  | some (ns, []) => some ns
  | _ => none

/-- Modelled from the spec: "now minus n months" with calendar-aware
clamping — the day-of-month is clamped to the last valid day of the target
month (so March 31 minus 1 month is the last day of February), the reading
of the spec's section 4.2 under test in claim C2. -/
def spec_month_minus (now off n : Int) : Int :=
  let tm := localtime_r now off
  let mon0 := tm.tm_mon - n
  let y2 := tm.tm_year + 1900 + mon0 / 12
  let m2 := mon0 % 12 + 1
  let month_len := days_from_civil y2 (m2 + 1) 1 - days_from_civil y2 m2 1
  let d2 := min tm.tm_mday month_len
  days_from_civil y2 m2 d2 * 86400
    + tm.tm_hour * 3600 + tm.tm_min * 60 + tm.tm_sec - off

/-- C1: the claim states that with `count = 0`, `period = 'd'` the node
renders true iff the tested timestamp falls on or after local midnight;
the code uses a strict comparison, so at exactly midnight it renders
false.  Concretely: `now = 1700000000` (2023-11-14 22:13:20 UTC),
midnight is `1699920000`, the claim predicts true and the code gives
false. -/
theorem C1_counterexample :
    ¬ (node_conddate_render (node_conddate_new 0 'd' 0 0) 1699920000 1700000000 0 = true ↔
       (1699920000 : Int) ≥ cutoff_this 1700000000 0 'd') := by
  decide

/-- C1 (amended): with `count = 0`, `period = 'd'`, rendering is true iff
the tested timestamp is strictly after local midnight of the current day,
where local midnight is `86400 ⌊(now + off) / 86400⌋ - off` for clock
`now` and UTC offset `off`. -/
theorem C1_day_cutoff (t now off : Int) :
    node_conddate_render (node_conddate_new 0 'd' 0 0) t now off = true ↔
      t > 86400 * ((now + off) / 86400) - off := by
  rw [node_conddate_render_iff]
  simp [node_conddate_new, node_conddate_private_new, cutoff_this_day_eq]

/-- C2: the claim states that month subtraction lands on the last valid
day of the shorter month; in the code `mktime` instead renormalizes the
overflowing day-of-month forward into the next month.  At
`now = 1711886400` (2024-03-31 12:00:00 UTC) the claim's cutoff is
2024-02-29 12:00:00 but the code's cutoff is 2024-03-02 12:00:00, so at
`t = 1709300000` the claim predicts true and the code renders false. -/
theorem C2_counterexample :
    ¬ (node_conddate_render (node_conddate_new 1 'm' 0 0) 1709300000 1711886400 0 = true ↔
       (1709300000 : Int) > spec_month_minus 1711886400 0 1) := by
  decide

/-- C2 (amended): for `count = n ≠ 0` the node renders true iff the tested
timestamp is strictly after the cutoff obtained by decrementing the local
calendar field selected by the period by `n` and renormalizing with
`mktime`.  For weeks, days, hours and minutes this equals `now` minus a
fixed number of seconds; for months an overflowing day-of-month rolls
forward into the following month (2024-03-31 minus one month is
2024-03-02, not the last day of February). -/
theorem C2_number_cutoff (t now off n : Int) (p : Char) (hn : n ≠ 0) :
    (node_conddate_render (node_conddate_new n p 0 0) t now off = true ↔
      t > cutoff_number now off p n) ∧
    cutoff_number now off 'w' n = now - 604800 * n ∧
    cutoff_number now off 'd' n = now - 86400 * n ∧
    cutoff_number now off 'H' n = now - 3600 * n ∧
    cutoff_number now off 'M' n = now - 60 * n := by
  refine ⟨?_, cutoff_number_week_eq now off n, cutoff_number_day_eq now off n,
    cutoff_number_hour_eq now off n, cutoff_number_minute_eq now off n⟩
  rw [node_conddate_render_iff]
  simp [node_conddate_new, node_conddate_private_new, hn]

theorem C2_number_cutoff_witness :
    (node_conddate_render (node_conddate_new 1 'm' 0 0) 1709300000 1711886400 0 = true ↔
      (1709300000 : Int) > cutoff_number 1711886400 0 'm' 1) ∧
    cutoff_number 1711886400 0 'w' 1 = 1711886400 - 604800 * 1 ∧
    cutoff_number 1711886400 0 'd' 1 = 1711886400 - 86400 * 1 ∧
    cutoff_number 1711886400 0 'H' 1 = 1711886400 - 3600 * 1 ∧
    cutoff_number 1711886400 0 'M' 1 = 1711886400 - 60 * 1 :=
  C2_number_cutoff 1709300000 1711886400 0 1 'm' (by decide)

/-- C3: the claim states that for every period, `cutoff_this` zeroes all
fields finer than the period, in particular that the `'w'` cutoff starts
at midnight.  The `'w'` case of the `switch` does not fall through to the
field-zeroing cases, so the time of day is kept: at 2024-03-31 12:00:00
UTC the week cutoff falls at 12:00:00, not 00:00:00. -/
theorem C3_counterexample :
    ¬ (cutoff_this 1711886400 0 'w' + 0) % 86400 = 0 := by
  decide

/-- C3 (amended): `cutoff_this` zeroes the finer fields for the periods
`'y'`, `'m'`, `'d'` (cutoff at local midnight), `'H'` (cutoff on the
hour), `'M'` (cutoff on the minute); for `'w'` only the day-of-month is
set to 1 and the hour, minute and second keep the current local time of
day. -/
theorem C3_zeroing (now off : Int) :
    (cutoff_this now off 'y' + off) % 86400 = 0 ∧
    (cutoff_this now off 'm' + off) % 86400 = 0 ∧
    (cutoff_this now off 'd' + off) % 86400 = 0 ∧
    (cutoff_this now off 'H' + off) % 3600 = 0 ∧
    (cutoff_this now off 'M' + off) % 60 = 0 ∧
    (cutoff_this now off 'w' + off) % 86400 = (now + off) % 86400 :=
  ⟨cutoff_this_midnight now off 'y' (Or.inl rfl),
   cutoff_this_midnight now off 'm' (Or.inr (Or.inl rfl)),
   cutoff_this_midnight now off 'd' (Or.inr (Or.inr rfl)),
   cutoff_this_hour_aligned now off,
   cutoff_this_minute_aligned now off,
   cutoff_this_week_time_of_day now off⟩

/-- C4: the claim states rendering depends only on the AST, dispatch
table, data context and column budget; a Conditional-Date node also reads
the ambient clock through `mutt_date_now`, so two invocations with all
declared inputs equal can differ.  Same node, same provider value, same
timezone, clocks one day apart: true then false. -/
theorem C4_counterexample :
    node_conddate_render (node_conddate_new 0 'd' 0 0) 1699920001 1700000000 0 = true ∧
    node_conddate_render (node_conddate_new 0 'd' 0 0) 1699920001 1700100000 0 = false := by
  decide

/-- C4 (amended): rendering a Conditional-Date node is a deterministic
function of the node, the provider value, the current clock and the
timezone: two invocations that agree on all of those agree on the
result. -/
theorem C4_deterministic (node : ExpandoNode) (t now off t2 now2 off2 : Int)
    (h1 : t = t2) (h2 : now = now2) (h3 : off = off2) :
    node_conddate_render node t now off = node_conddate_render node t2 now2 off2 := by
  subst h1
  subst h2
  subst h3
  rfl

theorem C4_deterministic_witness :
    node_conddate_render (node_conddate_new 0 'd' 0 0) 0 0 0 =
      node_conddate_render (node_conddate_new 0 'd' 0 0) 0 0 0 :=
  C4_deterministic (node_conddate_new 0 'd' 0 0) 0 0 0 0 0 0 rfl rfl rfl

/-- C5: `node_conddate_render` returns exactly the truth of
`t_test > t_cutoff`, where the cutoff is `cutoff_this period` when the
stored count is zero and `cutoff_number period count` otherwise. -/
theorem C5_render_eq (node : ExpandoNode) (t_test now off : Int) :
    node_conddate_render node t_test now off = true ↔
      t_test > (if node.ndata.count = 0 then cutoff_this now off node.ndata.period
        else cutoff_number now off node.ndata.period node.ndata.count) := by
  unfold node_conddate_render
  simp only [decide_eq_true_eq]

theorem takeWhile_digits_append (ds rest : List Char) (p : Char)
    (hds : ∀ c ∈ ds, c.isDigit) (hp : p.isDigit = false) :
    (ds ++ p :: rest).takeWhile Char.isDigit = ds ∧
    (ds ++ p :: rest).dropWhile Char.isDigit = p :: rest := by
  induction ds with
  | nil => simp [List.takeWhile_cons, List.dropWhile_cons, hp]
  | cons c cs ih =>
    have hc : c.isDigit := hds c (by simp)
    have ih2 := ih (fun x hx => hds x (by simp [hx]))
    simp [List.takeWhile_cons, List.dropWhile_cons, hc, ih2]

/-- C6: the claim states parsing fails with a `ParseError` exactly when
the count overflows or the character after the digits is not one of
`ymwdHM`.  The code checks the period with `strchr ("ymwdHM", *str)`,
which also matches the NUL terminator, so at the end of the input the
parse succeeds, returns a node whose period is the NUL character, and
advances `*parsed_until` one past the terminator, contradicting the
code's own comment ("Allowed periods: year, month, week, day, hour,
minute") and error message. -/
theorem C6_nul_period_accepted :
    node_conddate_parse [] 3 7 { position := 0, message := "" } =
      (some (node_conddate_new 0 (Char.ofNat 0) 3 7, 1),
       { position := 0, message := "" }) := by
  rfl

/-- C7: the claim states every `[count]<period>` token with an unsigned
decimal count parses successfully; a count of 65535 (`USHRT_MAX`, the
overflow sentinel) is rejected even though it is a valid unsigned
decimal, so the claim fails at input `"65535d"`. -/
theorem C7_counterexample :
    (node_conddate_parse ('6' :: '5' :: '5' :: '3' :: '5' :: 'd' :: [])
      0 0 { position := 0, message := "" }).1 = none := by
  rfl

/-- C7 (amended): every `[count]<period>` token whose period is one of
`ymwdHM` and whose optional decimal count is less than 65535 parses
successfully into a node storing exactly the parsed count (0 when the
digits are absent) and the period, with the caller's error struct left
untouched. -/
theorem C7_token_parse (ds rest : List Char) (p : Char) (did uid : Int)
    (err : ExpandoParseError)
    (hds : ∀ c ∈ ds, c.isDigit)
    (hp : p = 'y' ∨ p = 'm' ∨ p = 'w' ∨ p = 'd' ∨ p = 'H' ∨ p = 'M')
    (hv : decimal_value ds < 65535) :
    node_conddate_parse (ds ++ p :: rest) did uid err =
      (some (node_conddate_new (Int.ofNat (decimal_value ds)) p did uid,
        ds.length + 1), err) := by
  have hpd : p.isDigit = false := by
    rcases hp with h | h | h | h | h | h <;> subst h <;> rfl
  have hstr : strchr_ymwdHM p = true := by
    rcases hp with h | h | h | h | h | h <;> subst h <;> rfl
  obtain ⟨htw, hdw⟩ := takeWhile_digits_append ds rest p hds hpd
  cases ds with
  | nil =>
    unfold node_conddate_parse conddate_parse_tail
    simp [peekChar, hpd, hstr, decimal_value]
  | cons c cs =>
    have hc : c.isDigit := hds c (by simp)
    have hne : ¬ 65535 < decimal_value (c :: cs) := by omega
    have hne2 : ¬ decimal_value (c :: cs) = 65535 := by omega
    unfold node_conddate_parse mutt_str_atous
    have hpk : peekChar ((c :: cs) ++ p :: rest) = c := rfl
    rw [hpk]
    simp only [hc, if_true, htw, hne, if_false]
    simp only [hne2, if_false]
    have hdrop : ((c :: cs) ++ p :: rest).drop (c :: cs).length = p :: rest :=
      List.drop_left _ _
    rw [hdrop]
    unfold conddate_parse_tail
    simp [peekChar, hstr]

theorem C7_token_parse_witness :
    node_conddate_parse (('3' :: []) ++ 'd' :: []) 1 2 { position := 0, message := "" } =
      (some (node_conddate_new (Int.ofNat (decimal_value ('3' :: []))) 'd' 1 2,
        ('3' :: []).length + 1), { position := 0, message := "" }) :=
  C7_token_parse ('3' :: []) [] 'd' 1 2 { position := 0, message := "" }
    (by intro c hc; simp at hc; subst hc; rfl)
    (Or.inr (Or.inr (Or.inr (Or.inl rfl)))) (by decide)

/-- C10: whenever `node_conddate_parse` succeeds, the returned
`parsed_until` offset is exactly one past the period character — the
number of leading digits consumed plus one — and the caller's
`ExpandoParseError` struct is returned unmodified. -/
theorem C10_parse_consumption (s : List Char) (did uid : Int)
    (err : ExpandoParseError) (node : ExpandoNode) (idx : Nat)
    (errOut : ExpandoParseError)
    (h : node_conddate_parse s did uid err = (some (node, idx), errOut)) :
    errOut = err ∧ idx = (s.takeWhile Char.isDigit).length + 1 := by
  unfold node_conddate_parse at h
  cases hb : (peekChar s).isDigit with
  | false =>
    have htw : s.takeWhile Char.isDigit = [] := by
      cases s with
      | nil => rfl
      | cons c cs =>
        have hpk : peekChar (c :: cs) = c := rfl
        rw [hpk] at hb
        simp [List.takeWhile_cons, hb]
    rw [hb] at h
    simp only [Bool.false_eq_true, if_false] at h
    unfold conddate_parse_tail at h
    cases hs2 : strchr_ymwdHM (peekChar s) with
    | false => simp [hs2] at h
    | true =>
      simp only [hs2, if_true, Prod.mk.injEq, Option.some.injEq] at h
      obtain ⟨⟨hnode, hidx⟩, herr⟩ := h
      rw [htw]
      refine ⟨herr.symm, ?_⟩
      simpa using hidx.symm
  | true =>
    rw [hb] at h
    simp only [if_true] at h
    unfold mutt_str_atous at h
    by_cases hov : 65535 < decimal_value (s.takeWhile Char.isDigit)
    · simp [hov] at h
    · simp only [hov, if_false] at h
      by_cases he : decimal_value (s.takeWhile Char.isDigit) = 65535
      · simp [he] at h
      · simp only [he, if_false] at h
        unfold conddate_parse_tail at h
        cases hs2 : strchr_ymwdHM (peekChar (s.drop (s.takeWhile Char.isDigit).length)) with
        | false => simp [hs2] at h
        | true =>
          simp only [hs2, if_true, Prod.mk.injEq, Option.some.injEq] at h
          obtain ⟨⟨hnode, hidx⟩, herr⟩ := h
          exact ⟨herr.symm, hidx.symm⟩

theorem C10_parse_consumption_witness :
    ({ position := 0, message := "" } : ExpandoParseError) =
      { position := 0, message := "" } ∧
    2 = ((('3' :: 'd' :: []).takeWhile Char.isDigit).length + 1) :=
  C10_parse_consumption ('3' :: 'd' :: []) 1 2 { position := 0, message := "" }
    (node_conddate_new 3 'd' 1 2) 2 { position := 0, message := "" } (by rfl)

/-- C8: parsing `"%X %8X %-8X %08X %.8X %8.8X %-8.8X %=8X"` against a
single-token Definition Table for `X` yields eight Field nodes whose
Format-Specs are, in order, `{0,∞,right,' '}`, `{8,∞,right,' '}`,
`{8,∞,left,' '}`, `{8,∞,right,'0'}`, `{0,8,right,' '}`, `{8,8,right,' '}`,
`{8,8,left,' '}`, `{8,∞,center,' '}`, each except the last followed by a
single-space Text node. -/
theorem C8_format_specs :
    expando_parse "%X %8X %-8X %08X %.8X %8.8X %-8.8X %=8X" ['X'] =
      some [ENode.field 'X' { min_cols := 0, max_cols := none, justification := Justify.right, leader := ' ' },
            ENode.text [' '],
            ENode.field 'X' { min_cols := 8, max_cols := none, justification := Justify.right, leader := ' ' },
            ENode.text [' '],
            ENode.field 'X' { min_cols := 8, max_cols := none, justification := Justify.left, leader := ' ' },
            ENode.text [' '],
            ENode.field 'X' { min_cols := 8, max_cols := none, justification := Justify.right, leader := '0' },
            ENode.text [' '],
            ENode.field 'X' { min_cols := 0, max_cols := some 8, justification := Justify.right, leader := ' ' },
            ENode.text [' '],
            ENode.field 'X' { min_cols := 8, max_cols := some 8, justification := Justify.right, leader := ' ' },
            ENode.text [' '],
            ENode.field 'X' { min_cols := 8, max_cols := some 8, justification := Justify.left, leader := ' ' },
            ENode.text [' '],
            ENode.field 'X' { min_cols := 8, max_cols := none, justification := Justify.center, leader := ' ' }] := by
  rfl

/-- C9: parsing distinguishes absent branches from empty ones:
`%<a?%<b?%c&%d>&%<e?%f>>` yields an inner `e` conditional whose
false-branch is absent (`none`, not an empty node list), while
`%<a?%<b?%c&%d>&%<e?&%f>>` yields the `e` conditional with an absent
true-branch and a false-branch referencing token `f`. -/
theorem C9_absent_branches :
    expando_parse "%<a?%<b?%c&%d>&%<e?%f>>" ['a', 'b', 'c', 'd', 'e', 'f', 'g'] =
      some [ENode.cond (ENode.condBool 'a')
        (some [ENode.cond (ENode.condBool 'b')
          (some [ENode.field 'c' format_default])
          (some [ENode.field 'd' format_default])])
        (some [ENode.cond (ENode.condBool 'e')
          (some [ENode.field 'f' format_default]) none])] ∧
    expando_parse "%<a?%<b?%c&%d>&%<e?&%f>>" ['a', 'b', 'c', 'd', 'e', 'f', 'g'] =
      some [ENode.cond (ENode.condBool 'a')
        (some [ENode.cond (ENode.condBool 'b')
          (some [ENode.field 'c' format_default])
          (some [ENode.field 'd' format_default])])
        (some [ENode.cond (ENode.condBool 'e')
          none (some [ENode.field 'f' format_default])])] :=
  ⟨rfl, rfl⟩
